import Mathlib

/-!
# todo_list: a shallow embedding of `main.go`

The six HTTP handlers of `main.go` are embedded as pure functions over an explicit
model of the MongoDB collection they talk to.  A handler takes the database, the
URL parameter and the decoded request body and returns either a panic or a
`Result`: the database afterwards, the list of `rnd.JSON` calls it made (in order)
and the list of document-store calls it issued (in order).

The handlers are translated from `main.go`.  The functions of `gopkg.in/mgo.v2`,
`gopkg.in/mgo.v2/bson` and `strings` that they call are modelled in the first
section, each with a note on the library behaviour it stands for.
-/

namespace TodoList

/-! ## Library model: `strings`, `bson`, `mgo` -/

/-- Go `time.Time`, as milliseconds since the Unix epoch (the precision BSON stores). -/
abbrev Time := Int

/-- The zero value of `time.Time`: January 1, year 1, 00:00:00 UTC. -/
def zeroTime : Time := -62135596800000

/-- Go `unicode.IsSpace`. -/
def isSpace (c : Char) : Bool :=
  let n := c.toNat
  (9 ≤ n && n ≤ 13) || n == 32 || n == 0x85 || n == 0xA0 || n == 0x1680 ||
  (0x2000 ≤ n && n ≤ 0x200a) || n == 0x2028 || n == 0x2029 || n == 0x202f ||
  n == 0x205f || n == 0x3000

/-- Go `strings.TrimSpace`: drop leading and trailing white space. -/
def TrimSpace (s : String) : String :=
  ⟨((s.data.dropWhile isSpace).reverse.dropWhile isSpace).reverse⟩

/-- A hexadecimal digit as accepted by Go `encoding/hex`: `0-9`, `a-f`, `A-F`. -/
def isHexChar (c : Char) : Bool :=
  let n := c.toNat
  (48 ≤ n && n ≤ 57) || (97 ≤ n && n ≤ 102) || (65 ≤ n && n ≤ 70)

/-- Lower-case form of a hexadecimal digit (what `hex.EncodeToString` emits). -/
def hexLower (c : Char) : Char :=
  if 65 ≤ c.toNat ∧ c.toNat ≤ 70 then Char.ofNat (c.toNat + 32) else c

/-- The type `bson.ObjectId`: twelve raw bytes, or the empty zero value.  The bytes are
represented by their canonical lower-case hexadecimal text, so `Hex()` is the
projection `hex`, and the zero value is `⟨""⟩`. -/
structure ObjectId where
  hex : String
deriving DecidableEq

/-- Go `bson.IsObjectIdHex`: `len(s) == 24` and `hex.DecodeString(s)` succeeds.  A string
whose bytes are all hexadecimal digits is ASCII, so the byte length is the character
count. -/
def IsObjectIdHex (s : String) : Bool :=
  s.data.length == 24 && s.data.all isHexChar

/-- Why a handler stopped abnormally (a Go panic unwinding out of the handler). -/
inductive Panic
  | invalidObjectIdHex (s : String)
deriving DecidableEq

/-- Go `bson.ObjectIdHex`: decodes the hexadecimal text, and panics when the text does
not decode to exactly twelve bytes. -/
def ObjectIdHex (s : String) : Except Panic ObjectId :=
  if IsObjectIdHex s then .ok ⟨⟨s.data.map hexLower⟩⟩
  else .error (.invalidObjectIdHex s)

/-- A BSON value of one of the kinds the handlers store. -/
inductive BVal
  | oid (i : ObjectId)
  | str (s : String)
  | bool (b : Bool)
  | time (t : Time)
deriving DecidableEq

/-- A BSON document: its elements in order. -/
abbrev Doc := List (String × BVal)

/-- The value a document holds under a key; the decoder walks the elements in order, so
the last element of that name is the one that stays. -/
def docField (d : Doc) (k : String) : Option BVal :=
  d.reverse.lookup k

/-- The `_id` of a stored document. -/
def docId (d : Doc) : Option ObjectId :=
  match docField d "_id" with
  | some (.oid i) => some i
  | _ => none

/-- Whether a document matches the selector `bson.M{"_id": i}`. -/
def hasId (i : ObjectId) (d : Doc) : Bool :=
  docId d == some i

/-- Errors returned by the driver. -/
inductive DbErr
  | notFound
  | dupKey
  | unreachable
deriving DecidableEq

/-- The database as seen through the session: the documents of collection `todo`, in insertion
order, and whether the server can be reached (when it cannot, every call returns an
error). -/
structure DB where
  docs : List Doc
  up : Bool
deriving DecidableEq

/-- A call on the collection, as issued by a handler. -/
inductive DbCall
  | findAll
  | findOne (i : ObjectId)
  | insert (d : Doc)
  | removeId (i : ObjectId)
  | update (i : ObjectId) (u : Doc)
deriving DecidableEq

/-- Driver call `Find(bson.M{}).All`. -/
def DB.findAll (db : DB) : Except DbErr (List Doc) :=
  if db.up then .ok db.docs else .error .unreachable

/-- Driver call `Find(bson.M{"_id": i}).One`: the first matching document, `ErrNotFound` when there
is none. -/
def DB.findOne (db : DB) (i : ObjectId) : Except DbErr Doc :=
  if db.up then
    match db.docs.find? (hasId i) with
    | some d => .ok d
    | none => .error .notFound
  else .error .unreachable

/-- Driver call `Insert`: appends the document; a document whose `_id` is already present is
refused with a duplicate-key error.  A document without `_id` is stored as given: the
identifier the server would assign to it is not modelled (`createTodo` always sends one). -/
def DB.insert (db : DB) (d : Doc) : Except DbErr DB :=
  if db.up then
    match docId d with
    | some i => if db.docs.any (hasId i) then .error .dupKey
                else .ok { db with docs := db.docs ++ [d] }
    | none => .ok { db with docs := db.docs ++ [d] }
  else .error .unreachable

/-- Remove the first document with the given `_id`. -/
def removeFirst (i : ObjectId) : List Doc → List Doc
  | [] => []
  | d :: ds => if hasId i d then ds else d :: removeFirst i ds

/-- Driver call `RemoveId`: removes the document with that `_id`, `ErrNotFound` when there is
none. -/
def DB.removeId (db : DB) (i : ObjectId) : Except DbErr DB :=
  if db.up then
    if db.docs.any (hasId i) then .ok { db with docs := removeFirst i db.docs }
    else .error .notFound
  else .error .unreachable

/-- Replace the first document with the given `_id` by `("_id", i) :: u`. -/
def replaceFirst (i : ObjectId) (u : Doc) : List Doc → List Doc
  | [] => []
  | d :: ds => if hasId i d then (("_id", BVal.oid i) :: u) :: ds else d :: replaceFirst i u ds

/-- Driver call `Update(bson.M{"_id": i}, u)` with an update document `u` that holds no `$`
operator: MongoDB takes such a document as a replacement, the matched document
becomes `u` and keeps only its `_id`.  `ErrNotFound` when no document matches. -/
def DB.update (db : DB) (i : ObjectId) (u : Doc) : Except DbErr DB :=
  if db.up then
    if db.docs.any (hasId i) then .ok { db with docs := replaceFirst i u db.docs }
    else .error .notFound
  else .error .unreachable

/-- The key under which `bson` stores and looks up a struct field (`getStructInfo`): the name in
the field's `bson` tag when it has one, otherwise the field's name in lower case.  A `json`
tag plays no part. -/
def bsonKey (fieldName : String) (bsonTag : Option String) : String :=
  match bsonTag with
  | some k => k
  | none => ⟨fieldName.data.map Char.toLower⟩

/-- Decode an element into a field of type `bson.ObjectId`; the field keeps its zero value when
the document has no element under the key, or one of another kind (the conversions the
decoder performs between kinds are not modelled; the handlers store matching kinds only). -/
def getOid (d : Doc) (k : String) : ObjectId :=
  match docField d k with
  | some (.oid i) => i
  | _ => ⟨""⟩

/-- Decode an element into a `string` field. -/
def getStr (d : Doc) (k : String) : String :=
  match docField d k with
  | some (.str s) => s
  | _ => ""

/-- Decode an element into a `bool` field. -/
def getBool (d : Doc) (k : String) : Bool :=
  match docField d k with
  | some (.bool b) => b
  | _ => false

/-- Decode an element into a `time.Time` field. -/
def getTime (d : Doc) (k : String) : Time :=
  match docField d k with
  | some (.time t) => t
  | _ => zeroTime

/-! ## Data model (`main.go`, lines 30-47) -/

/-- The storage representation, with its `bson` tags `_id,omitempty`, `title`, `completed`,
`createdAt`. -/
structure todoModel where
  ID : ObjectId
  Title : String
  Completed : Bool
  CreatedAt : Time
deriving DecidableEq

/-- The wire representation; its fields carry `json` tags only. -/
structure todo where
  Id : String
  Title : String
  Completed : Bool
  CreatedAt : Time
deriving DecidableEq

/-- The title view; its fields carry `json` tags only. -/
structure todoTitle where
  Title : String
  Completed : Bool
deriving DecidableEq

/-- Encoding `bson.Marshal(&tm)` of a `todoModel`: `omitempty` leaves `_id` out when the id is empty. -/
def marshalTodoModel (tm : todoModel) : Doc :=
  (if tm.ID.hex = "" then [] else [(bsonKey "ID" (some "_id"), BVal.oid tm.ID)]) ++
  [(bsonKey "Title" (some "title"), BVal.str tm.Title),
   (bsonKey "Completed" (some "completed"), BVal.bool tm.Completed),
   (bsonKey "CreatedAt" (some "createdAt"), BVal.time tm.CreatedAt)]

/-- Decoding `bson.Unmarshal` of a stored document into a `todoModel`. -/
def decodeTodoModel (d : Doc) : todoModel :=
  { ID := getOid d (bsonKey "ID" (some "_id")),
    Title := getStr d (bsonKey "Title" (some "title")),
    Completed := getBool d (bsonKey "Completed" (some "completed")),
    CreatedAt := getTime d (bsonKey "CreatedAt" (some "createdAt")) }

/-- Decoding `bson.Unmarshal` of a stored document into a `todo`: no field has a `bson` tag, so
the keys looked up are the lower-cased field names. -/
def decodeTodo (d : Doc) : todo :=
  { Id := getStr d (bsonKey "Id" none),
    Title := getStr d (bsonKey "Title" none),
    Completed := getBool d (bsonKey "Completed" none),
    CreatedAt := getTime d (bsonKey "CreatedAt" none) }

/-- Decoding `bson.Unmarshal` of a stored document into a `todoTitle`. -/
def decodeTodoTitle (d : Doc) : todoTitle :=
  { Title := getStr d (bsonKey "Title" none),
    Completed := getBool d (bsonKey "Completed" none) }

/-! ## Responses -/

/-- A value placed in a `renderer.M`. -/
inductive JVal
  | str (s : String)
  | err (e : DbErr)
  | todo (t : todo)
  | todoTitle (t : todoTitle)
  | todos (l : List todo)
deriving DecidableEq

/-- What is handed to `rnd.JSON` as the body: a `renderer.M`, or the bare decode error. -/
inductive Body
  | m (fields : List (String × JVal))
  | err (e : String)
deriving DecidableEq

/-- One call `rnd.JSON(w, status, body)`. -/
structure Response where
  status : Nat
  body : Body
deriving DecidableEq

def StatusProcessing : Nat := 102
def StatusOK : Nat := 200
def StatusCreated : Nat := 201
def StatusBadRequest : Nat := 400

/-- The value of a field of the body, when the body is a `renderer.M` that has it. -/
def Response.field (r : Response) (k : String) : Option JVal :=
  match r.body with
  | .m fields => fields.lookup k
  | .err _ => none

/-- Whether the status is in the 2xx class. -/
def Response.is2xx (r : Response) : Bool :=
  200 ≤ r.status && r.status < 300

/-- What a handler did: the database afterwards, the `rnd.JSON` calls in order, the
document-store calls in order. -/
structure Result where
  db : DB
  responses : List Response
  calls : List DbCall
deriving DecidableEq

/-! ## Handlers (`main.go`, lines 63-226) -/

/-- Handler `fetchTodos`, lines 63-85. -/
def fetchTodos (db : DB) : Except Panic Result :=
  match db.findAll with
  | .error err =>
    .ok ⟨db, [⟨StatusProcessing,
      .m [("message", .str "Failed to fetch todo"), ("error", .err err)]⟩], [.findAll]⟩
  | .ok docs =>
    let todos := docs.map decodeTodoModel
    let todoList : List todo := todos.map fun t =>
      { Id := t.ID.hex, Title := t.Title, Completed := t.Completed, CreatedAt := t.CreatedAt }
    .ok ⟨db, [⟨StatusOK, .m [("data", .todos todoList)]⟩], [.findAll]⟩

/-- Handler `fetchById`, lines 87-106.  `idParam` is `chi.URLParam(r, "id")`. -/
def fetchById (db : DB) (idParam : String) : Except Panic Result :=
  let id := TrimSpace idParam
  match ObjectIdHex id with
  | .error p => .error p
  | .ok oid =>
    match db.findOne oid with
    | .error err =>
      .ok ⟨db, [⟨StatusProcessing,
        .m [("message", .str "The id is invalid"), ("error", .err err)]⟩], [.findOne oid]⟩
    | .ok d =>
      let todoData := decodeTodo d
      .ok ⟨db, [⟨StatusOK, .m [("data", .todo todoData)]⟩], [.findOne oid]⟩

/-- Handler `printTitleById`, lines 108-125. -/
def printTitleById (db : DB) (idParam : String) : Except Panic Result :=
  let id := TrimSpace idParam
  match ObjectIdHex id with
  | .error p => .error p
  | .ok oid =>
    match db.findOne oid with
    | .error err =>
      .ok ⟨db, [⟨StatusProcessing,
        .m [("message", .str "The id is invalid"), ("error", .err err)]⟩], [.findOne oid]⟩
    | .ok d =>
      let todoData := decodeTodoTitle d
      .ok ⟨db, [⟨StatusOK, .m [("data", .todoTitle todoData)]⟩], [.findOne oid]⟩

/-- Handler `createTodo`, lines 127-160.  `body` is the outcome of decoding the request body into
a `todo`; `newId` and `now` are what `bson.NewObjectId()` and `time.Now()` return.  The
branch for a failed insert has no `return`, so control falls through to the final
`rnd.JSON`. -/
def createTodo (db : DB) (body : Except String todo) (newId : ObjectId) (now : Time) :
    Except Panic Result :=
  match body with
  | .error err => .ok ⟨db, [⟨StatusProcessing, .err err⟩], []⟩
  | .ok t =>
    if t.Title = "" then
      .ok ⟨db, [⟨StatusBadRequest, .m [("message", .str "The Title is required")]⟩], []⟩
    else
      let tm : todoModel := { ID := newId, Title := t.Title, Completed := false, CreatedAt := now }
      let created : Response :=
        ⟨StatusCreated, .m [("message", .str "Todo created successfully"),
                            ("todo_id", .str tm.ID.hex)]⟩
      match db.insert (marshalTodoModel tm) with
      | .error err =>
        .ok ⟨db, [⟨StatusProcessing,
          .m [("message", .str "Failed to save todo"), ("error", .err err)]⟩, created],
          [.insert (marshalTodoModel tm)]⟩
      | .ok db1 => .ok ⟨db1, [created], [.insert (marshalTodoModel tm)]⟩

/-- Handler `deleteTodo`, lines 162-183. -/
def deleteTodo (db : DB) (idParam : String) : Except Panic Result :=
  let id := TrimSpace idParam
  if !IsObjectIdHex id then
    .ok ⟨db, [⟨StatusBadRequest, .m [("message", .str "The id is invalid")]⟩], []⟩
  else
    match ObjectIdHex id with
    | .error p => .error p
    | .ok oid =>
      match db.removeId oid with
      | .error err =>
        .ok ⟨db, [⟨StatusProcessing,
          .m [("message", .str "Failed to delete todo"), ("error", .err err)]⟩], [.removeId oid]⟩
      | .ok db1 =>
        .ok ⟨db1, [⟨StatusOK, .m [("message", .str "todo deleted successfully")]⟩],
          [.removeId oid]⟩

/-- The update document `bson.M{"title": t.Title, "completed": t.Completed}` of line 218 (a Go map,
so the order of its two elements is not fixed; lookups do not depend on it). -/
def updateDoc (t : todo) : Doc :=
  [("title", BVal.str t.Title), ("completed", BVal.bool t.Completed)]

/-- Handler `updateTodo`, lines 185-226.  When the store update succeeds the function ends without
calling `rnd.JSON`. -/
def updateTodo (db : DB) (idParam : String) (body : Except String todo) : Except Panic Result :=
  let id := TrimSpace idParam
  if !IsObjectIdHex id then
    .ok ⟨db, [⟨StatusBadRequest, .m [("message", .str "The Id is invalid")]⟩], []⟩
  else
    match body with
    | .error err => .ok ⟨db, [⟨StatusProcessing, .err err⟩], []⟩
    | .ok t =>
      -- lines 204-214: an empty title is replaced by the stored one
      let resolved : Except Panic (Except Result (todo × List DbCall)) :=
        if t.Title = "" then
          match ObjectIdHex id with
          | .error p => .error p
          | .ok oid =>
            match db.findOne oid with
            | .error err =>
              .ok (.error ⟨db, [⟨StatusProcessing,
                .m [("message", .str "failed to update todo"), ("error", .err err)]⟩],
                [.findOne oid]⟩)
            | .ok d =>
              let todoData := decodeTodo d
              .ok (.ok ({ t with Title := todoData.Title }, [.findOne oid]))
        else .ok (.ok (t, []))
      match resolved with
      | .error p => .error p
      | .ok (.error r) => .ok r
      | .ok (.ok (t, calls)) =>
        -- lines 216-225
        match ObjectIdHex id with
        | .error p => .error p
        | .ok oid =>
          match db.update oid (updateDoc t) with
          | .error err =>
            .ok ⟨db, [⟨StatusProcessing,
              .m [("message", .str "failed to update todo"), ("error", .err err)]⟩],
              calls ++ [.update oid (updateDoc t)]⟩
          | .ok db1 => .ok ⟨db1, [], calls ++ [.update oid (updateDoc t)]⟩

/-- No failure was reported: every rendered response, if any, is in the 2xx class. -/
def Result.noError (r : Result) : Bool :=
  r.responses.all Response.is2xx

/-! ## Sequences of requests (`todoHandlers`, lines 257-268) -/

/-- A mutating request as routed by `todoHandlers`: `POST /`, `PUT /{id}`, `DELETE /{id}`, together
with what the environment supplies while it is served. -/
inductive Request
  | create (body : Except String todo) (newId : ObjectId) (now : Time)
  | update (idParam : String) (body : Except String todo)
  | delete (idParam : String)

/-- The handler the router picks for a request. -/
def serve (db : DB) : Request → Except Panic Result
  | .create body newId now => createTodo db body newId now
  | .update idParam body => updateTodo db idParam body
  | .delete idParam => deleteTodo db idParam

/-- A request and what was rendered for it. -/
structure Exchange where
  req : Request
  responses : List Response

/-- The database after a request; a panic leaves it as it was. -/
def dbAfter (db : DB) (q : Request) : DB :=
  match serve db q with
  | .ok r => r.db
  | .error _ => db

/-- The exchange a request gives rise to; a panic renders nothing. -/
def exchange (db : DB) (q : Request) : Exchange :=
  ⟨q, match serve db q with
      | .ok r => r.responses
      | .error _ => []⟩

/-- Serve the requests one after the other: the final database and the exchanges in order. -/
def run (db : DB) : List Request → DB × List Exchange
  | [] => (db, [])
  | q :: qs => ((run (dbAfter db q) qs).1, exchange db q :: (run (dbAfter db q) qs).2)

/-- An identifier as `bson.NewObjectId()` hands it out: twelve bytes, in canonical text. -/
def ObjectId.wellFormed (i : ObjectId) : Bool :=
  IsObjectIdHex i.hex && i.hex.data.map hexLower == i.hex.data

/-- The identifier generated for a create request is well formed and names no stored document. -/
def freshFor (db : DB) : Request → Bool
  | .create _ newId _ => newId.wellFormed && !db.docs.any (hasId newId)
  | _ => true

/-- Every identifier generated along the run is fresh at the time it is generated. -/
def freshRun (db : DB) : List Request → Bool
  | [] => true
  | q :: qs => freshFor db q && freshRun (dbAfter db q) qs

/-- The identifier returned by a successful create: the exchange is a create that rendered the 201
response alone, and the identifier is its `todo_id`. -/
def Exchange.created (x : Exchange) : Option String :=
  match x.req, x.responses with
  | .create _ _ _, [resp] =>
    if resp.status = StatusCreated then
      match resp.field "todo_id" with
      | some (.str i) => some i
      | _ => none
    else none
  | _, _ => none

/-- The identifier removed by a successful delete: the exchange is a delete that rendered the 200
response alone, and the identifier is the one its URL parameter denotes. -/
def Exchange.deleted (x : Exchange) : Option String :=
  match x.req, x.responses with
  | .delete idParam, [resp] =>
    if resp.status = StatusOK then
      match ObjectIdHex (TrimSpace idParam) with
      | .ok oid => some oid.hex
      | .error _ => none
    else none
  | _, _ => none

/-- Some exchange of the list is a successful delete of `i`. -/
def deletedIn (i : String) (xs : List Exchange) : Bool :=
  xs.any fun x => x.deleted == some i

/-- Identifier `i` was returned by a successful create that no later exchange successfully
deleted. -/
def liveAfter (i : String) : List Exchange → Bool
  | [] => false
  | x :: xs => (x.created == some i && !deletedIn i xs) || liveAfter i xs

/-- The identifiers of the stored documents, as `fetchTodos` decodes them. -/
def idsOf (docs : List Doc) : List ObjectId :=
  docs.map fun d => getOid d "_id"

/-- Every stored document has an object id under `_id`. -/
def Shape (docs : List Doc) : Prop :=
  ∀ d ∈ docs, ∃ i, docId d = some i

/-- What one request does to the stored identifiers: the store stays reachable and well shaped,
the identifiers stay distinct, and an identifier is stored afterwards exactly when it was
stored before and not deleted by the request, or was created by it. -/
def StepOk (db : DB) (q : Request) : Prop :=
  (dbAfter db q).up = true ∧ Shape (dbAfter db q).docs ∧ (idsOf (dbAfter db q).docs).Nodup ∧
  ∀ s, s ∈ (idsOf (dbAfter db q).docs).map ObjectId.hex ↔
    ((s ∈ (idsOf db.docs).map ObjectId.hex ∧ (exchange db q).deleted ≠ some s) ∨
      (exchange db q).created = some s)

/-- The invariant of a run: the store is reachable and well shaped, its identifiers are distinct,
and they are the identifiers live after the exchanges so far. -/
def Inv (db : DB) (xs : List Exchange) : Prop :=
  db.up = true ∧ Shape db.docs ∧ (idsOf db.docs).Nodup ∧
  ∀ s, s ∈ (idsOf db.docs).map ObjectId.hex ↔ liveAfter s xs = true

/-! ## Sample data -/

def oidA : ObjectId := ⟨"5f1d7f3e2a4b6c8d9e0f1a2b"⟩

def oidB : ObjectId := ⟨"0123456789abcdef01234567"⟩

/-- The document `createTodo` stores for title "buy milk", identifier `oidA`, time 1000. -/
def docA : Doc :=
  [("_id", .oid oidA), ("title", .str "buy milk"), ("completed", .bool false),
   ("createdAt", .time 1000)]

/-- A reachable store that holds `docA` only. -/
def dbA : DB := ⟨[docA], true⟩

/-- The empty, reachable store. -/
def emptyDB : DB := ⟨[], true⟩

/-- A sample run: two creates, an update of the first Todo with an empty title, a successful
delete of the first Todo, a second delete of it. -/
def sampleRun : List Request :=
  [.create (.ok ⟨"", "buy milk", false, 0⟩) oidA 1000,
   .create (.ok ⟨"", "walk", true, 0⟩) oidB 2000,
   .update oidA.hex (.ok ⟨"", "", true, 0⟩),
   .delete " 5F1D7F3E2A4B6C8D9E0F1A2B ",
   .delete oidA.hex]

/-! ## Lemmas on the library model -/

theorem ObjectIdHex_ok_valid {s : String} {i : ObjectId} (h : ObjectIdHex s = .ok i) :
    IsObjectIdHex s = true := by
  unfold ObjectIdHex at h
  split at h
  · assumption
  · cases h

theorem docId_replacement (i : ObjectId) (t : todo) :
    docId (("_id", BVal.oid i) :: updateDoc t) = some i := by
  rfl

theorem hasId_replacement (i : ObjectId) (t : todo) :
    hasId i (("_id", BVal.oid i) :: updateDoc t) = true := by
  simp [hasId, docId_replacement]

theorem find_replaceFirst (i : ObjectId) (t : todo) (docs : List Doc)
    (h : docs.any (hasId i) = true) :
    (replaceFirst i (updateDoc t) docs).find? (hasId i)
      = some (("_id", BVal.oid i) :: updateDoc t) := by
  induction docs with
  | nil => simp at h
  | cons d ds ih =>
    by_cases hd : hasId i d = true
    · simp [replaceFirst, hd, List.find?, hasId_replacement]
    · have hds : ds.any (hasId i) = true := by
        simpa [List.any_cons, hd] using h
      simp only [replaceFirst, hd]
      simp [List.find?, hd, ih hds]

theorem any_of_find {i : ObjectId} {docs : List Doc} {d : Doc}
    (h : docs.find? (hasId i) = some d) : docs.any (hasId i) = true := by
  have h1 := List.find?_some h
  have h2 := List.mem_of_find?_eq_some h
  exact List.any_eq_true.mpr ⟨d, h2, h1⟩

theorem find_none_of_any_false {i : ObjectId} {docs : List Doc}
    (h : docs.any (hasId i) = false) : docs.find? (hasId i) = none := by
  rw [List.find?_eq_none]
  intro d hd hi
  have : docs.any (hasId i) = true := List.any_eq_true.mpr ⟨d, hd, hi⟩
  simp [h] at this

theorem hex_ne_empty {s : String} (h : IsObjectIdHex s = true) : s ≠ "" := by
  rintro rfl
  simp [IsObjectIdHex] at h

theorem docId_marshal (i : ObjectId) (title : String) (c : Bool) (now : Time) (h : i.hex ≠ "") :
    docId (marshalTodoModel ⟨i, title, c, now⟩) = some i := by
  simp only [marshalTodoModel, h, if_false]
  rfl

theorem deletedIn_snoc (i : String) (xs : List Exchange) (x : Exchange) :
    deletedIn i (xs ++ [x]) = (deletedIn i xs || x.deleted == some i) := by
  simp [deletedIn, List.any_append]

theorem liveAfter_snoc (i : String) (xs : List Exchange) (x : Exchange) :
    liveAfter i (xs ++ [x]) =
      ((liveAfter i xs && !(x.deleted == some i)) || x.created == some i) := by
  induction xs with
  | nil => simp [liveAfter, deletedIn]
  | cons y ys ih =>
    have h : liveAfter i (y :: ys ++ [x]) =
        ((y.created == some i && !deletedIn i (ys ++ [x])) || liveAfter i (ys ++ [x])) := rfl
    rw [h, ih, deletedIn_snoc]
    simp only [liveAfter]
    cases (y.created == some i) <;> cases (deletedIn i ys) <;> cases (x.deleted == some i) <;>
      cases (liveAfter i ys) <;> cases (x.created == some i) <;> rfl

theorem getOid_of_docId {d : Doc} {i : ObjectId} (h : docId d = some i) : getOid d "_id" = i := by
  unfold docId at h
  unfold getOid
  split at h
  · rename_i j hj
    simp only [Option.some.injEq] at h
    simp [hj, h]
  · cases h

theorem hasId_iff {d : Doc} {i : ObjectId} : hasId i d = true ↔ docId d = some i := by
  simp [hasId]

theorem hasId_iff_getOid {docs : List Doc} (hs : Shape docs) {d : Doc} (hd : d ∈ docs)
    (i : ObjectId) : hasId i d = true ↔ getOid d "_id" = i := by
  obtain ⟨j, hj⟩ := hs d hd
  rw [hasId_iff, hj, getOid_of_docId hj]
  simp

theorem any_hasId_iff {docs : List Doc} (hs : Shape docs) (i : ObjectId) :
    docs.any (hasId i) = true ↔ i ∈ idsOf docs := by
  simp only [List.any_eq_true, idsOf, List.mem_map]
  constructor
  · rintro ⟨d, hd, h⟩
    exact ⟨d, hd, (hasId_iff_getOid hs hd i).mp h⟩
  · rintro ⟨d, hd, h⟩
    exact ⟨d, hd, (hasId_iff_getOid hs hd i).mpr h⟩

theorem Shape.tail {d : Doc} {ds : List Doc} (hs : Shape (d :: ds)) : Shape ds :=
  fun e he => hs e (List.mem_cons_of_mem d he)

theorem shape_replaceFirst (i : ObjectId) (t : todo) {docs : List Doc} (hs : Shape docs) :
    Shape (replaceFirst i (updateDoc t) docs) := by
  induction docs with
  | nil => simpa [replaceFirst] using hs
  | cons d ds ih =>
    intro e he
    by_cases hd : hasId i d = true
    · simp only [replaceFirst, hd, if_true, List.mem_cons] at he
      rcases he with rfl | he
      · exact ⟨i, docId_replacement i t⟩
      · exact hs e (List.mem_cons_of_mem d he)
    · have e1 : replaceFirst i (updateDoc t) (d :: ds) = d :: replaceFirst i (updateDoc t) ds := by
        simp [replaceFirst, hd]
      rw [e1, List.mem_cons] at he
      rcases he with rfl | he
      · exact hs e (List.mem_cons_self _ _)
      · exact ih hs.tail e he

theorem idsOf_replaceFirst (i : ObjectId) (t : todo) {docs : List Doc} (hs : Shape docs) :
    idsOf (replaceFirst i (updateDoc t) docs) = idsOf docs := by
  induction docs with
  | nil => rfl
  | cons d ds ih =>
    by_cases hd : hasId i d = true
    · have h1 : getOid d "_id" = i :=
        (hasId_iff_getOid hs (List.mem_cons_self _ _) i).mp hd
      have h2 : getOid (("_id", BVal.oid i) :: updateDoc t) "_id" = i :=
        getOid_of_docId (docId_replacement i t)
      simp [replaceFirst, hd, idsOf, h1, h2]
    · have := ih hs.tail
      simp only [idsOf] at this
      simp [replaceFirst, hd, idsOf, this]

theorem shape_removeFirst (i : ObjectId) {docs : List Doc} (hs : Shape docs) :
    Shape (removeFirst i docs) := by
  induction docs with
  | nil => simpa [removeFirst] using hs
  | cons d ds ih =>
    intro e he
    by_cases hd : hasId i d = true
    · simp only [removeFirst, hd, if_true] at he
      exact hs e (List.mem_cons_of_mem d he)
    · have e1 : removeFirst i (d :: ds) = d :: removeFirst i ds := by
        simp [removeFirst, hd]
      rw [e1, List.mem_cons] at he
      rcases he with rfl | he
      · exact hs e (List.mem_cons_self _ _)
      · exact ih hs.tail e he

theorem idsOf_removeFirst (i : ObjectId) {docs : List Doc} (hs : Shape docs) :
    idsOf (removeFirst i docs) = (idsOf docs).erase i := by
  induction docs with
  | nil => rfl
  | cons d ds ih =>
    by_cases hd : hasId i d = true
    · have h1 : getOid d "_id" = i :=
        (hasId_iff_getOid hs (List.mem_cons_self _ _) i).mp hd
      simp [removeFirst, hd, idsOf, h1]
    · have h1 : ¬ getOid d "_id" = i := fun h =>
        hd ((hasId_iff_getOid hs (List.mem_cons_self _ _) i).mpr h)
      have := ih hs.tail
      simp only [idsOf] at this
      simp [removeFirst, hd, idsOf, this, List.erase_cons_tail, h1]

theorem stepOk_same {db : DB} {q : Request} (hup : db.up = true) (hs : Shape db.docs)
    (hn : (idsOf db.docs).Nodup) (h1 : dbAfter db q = db)
    (hc : (exchange db q).created = none) (hd : (exchange db q).deleted = none) :
    StepOk db q := by
  refine ⟨by rw [h1]; exact hup, by rw [h1]; exact hs, by rw [h1]; exact hn, ?_⟩
  intro s
  rw [h1, hc, hd]
  simp

theorem stepOk_create (db : DB) (body : Except String todo) (newId : ObjectId) (now : Time)
    (hup : db.up = true) (hs : Shape db.docs) (hn : (idsOf db.docs).Nodup)
    (hf : freshFor db (.create body newId now) = true) :
    StepOk db (.create body newId now) := by
  cases body with
  | error e =>
    apply stepOk_same hup hs hn
    · rfl
    · rfl
    · rfl
  | ok t =>
    by_cases hT : t.Title = ""
    · apply stepOk_same hup hs hn
      · simp [dbAfter, serve, createTodo, hT]
      · simp [exchange, serve, createTodo, hT, Exchange.created, StatusBadRequest, StatusCreated]
      · simp [exchange, Exchange.deleted]
    · simp only [freshFor, ObjectId.wellFormed, Bool.and_eq_true, Bool.not_eq_true'] at hf
      obtain ⟨⟨hv, _⟩, hfresh⟩ := hf
      have hne := hex_ne_empty hv
      have hdoc := docId_marshal newId t.Title false now hne
      have hins : db.insert (marshalTodoModel ⟨newId, t.Title, false, now⟩) =
          .ok ⟨db.docs ++ [marshalTodoModel ⟨newId, t.Title, false, now⟩], db.up⟩ := by
        simp [DB.insert, hup, hdoc, hfresh]
      have hnotin : newId ∉ idsOf db.docs := by
        intro hmem
        have := (any_hasId_iff hs newId).mpr hmem
        simp [hfresh] at this
      have hdb : dbAfter db (.create (.ok t) newId now) =
          ⟨db.docs ++ [marshalTodoModel ⟨newId, t.Title, false, now⟩], db.up⟩ := by
        simp [dbAfter, serve, createTodo, hT, hins]
      have hc : (exchange db (.create (.ok t) newId now)).created = some newId.hex := by
        simp [exchange, serve, createTodo, hT, hins, Exchange.created, Response.field]
        rfl
      have hd : (exchange db (.create (.ok t) newId now)).deleted = none := by
        simp [exchange, Exchange.deleted]
      have hids : idsOf (db.docs ++ [marshalTodoModel ⟨newId, t.Title, false, now⟩]) =
          idsOf db.docs ++ [newId] := by
        simp [idsOf, getOid_of_docId hdoc]
      refine ⟨by rw [hdb]; exact hup, ?_, ?_, ?_⟩
      · rw [hdb]
        intro e he
        rcases List.mem_append.mp he with he | he
        · exact hs e he
        · rw [List.mem_singleton] at he
          exact ⟨newId, he ▸ hdoc⟩
      · rw [hdb, hids]
        exact List.nodup_append.mpr ⟨hn, List.nodup_singleton _, by simpa using hnotin⟩
      · intro s
        rw [hdb, hc, hd, hids]
        simp [eq_comm]

theorem stepOk_sameIds {db : DB} {q : Request} (hn : (idsOf db.docs).Nodup)
    (hup : (dbAfter db q).up = true) (hs : Shape (dbAfter db q).docs)
    (hids : idsOf (dbAfter db q).docs = idsOf db.docs)
    (hc : (exchange db q).created = none) (hd : (exchange db q).deleted = none) :
    StepOk db q := by
  refine ⟨hup, hs, by rw [hids]; exact hn, ?_⟩
  intro s
  rw [hids, hc, hd]
  simp

theorem updateTodo_db (db : DB) (idParam : String) (body : Except String todo)
    (hup : db.up = true) :
    dbAfter db (.update idParam body) = db ∨
    ∃ oid t, dbAfter db (.update idParam body) = ⟨replaceFirst oid (updateDoc t) db.docs, db.up⟩ := by
  by_cases hv : IsObjectIdHex (TrimSpace idParam) = true
  · have hid : ObjectIdHex (TrimSpace idParam) = .ok ⟨⟨(TrimSpace idParam).data.map hexLower⟩⟩ := by
      simp [ObjectIdHex, hv]
    generalize (⟨⟨(TrimSpace idParam).data.map hexLower⟩⟩ : ObjectId) = oid at hid
    cases body with
    | error e => left; simp [dbAfter, serve, updateTodo, hv]
    | ok t =>
      by_cases hany : db.docs.any (hasId oid) = true
      · by_cases hT : t.Title = ""
        · cases hf : db.docs.find? (hasId oid) with
          | none =>
            left; simp [dbAfter, serve, updateTodo, hv, hid, hT, DB.findOne, hup, hf]
          | some d =>
            right
            refine ⟨oid, { t with Title := (decodeTodo d).Title }, ?_⟩
            simp [dbAfter, serve, updateTodo, hv, hid, hT, DB.findOne, hup, hf, DB.update, hany]
        · right
          refine ⟨oid, t, ?_⟩
          simp [dbAfter, serve, updateTodo, hv, hid, hT, DB.update, hup, hany]
      · left
        have hf := find_none_of_any_false (Bool.eq_false_iff.mpr hany)
        by_cases hT : t.Title = ""
        · simp [dbAfter, serve, updateTodo, hv, hid, hT, DB.findOne, hup, hf]
        · simp [dbAfter, serve, updateTodo, hv, hid, hT, DB.update, hup, hany]
  · left; simp [dbAfter, serve, updateTodo, hv]

theorem stepOk_update (db : DB) (idParam : String) (body : Except String todo)
    (hup : db.up = true) (hs : Shape db.docs) (hn : (idsOf db.docs).Nodup) :
    StepOk db (.update idParam body) := by
  have hc : (exchange db (.update idParam body)).created = none := by
    simp [exchange, Exchange.created]
  have hd : (exchange db (.update idParam body)).deleted = none := by
    simp [exchange, Exchange.deleted]
  rcases updateTodo_db db idParam body hup with h | ⟨oid, t, h⟩
  · exact stepOk_same hup hs hn h hc hd
  · refine stepOk_sameIds hn ?_ ?_ ?_ hc hd
    · rw [h]; exact hup
    · rw [h]; exact shape_replaceFirst oid t hs
    · rw [h]; exact idsOf_replaceFirst oid t hs

theorem stepOk_delete (db : DB) (idParam : String)
    (hup : db.up = true) (hs : Shape db.docs) (hn : (idsOf db.docs).Nodup) :
    StepOk db (.delete idParam) := by
  have hc : (exchange db (.delete idParam)).created = none := by
    simp [exchange, Exchange.created]
  by_cases hv : IsObjectIdHex (TrimSpace idParam) = true
  · have hid : ObjectIdHex (TrimSpace idParam) = .ok ⟨⟨(TrimSpace idParam).data.map hexLower⟩⟩ := by
      simp [ObjectIdHex, hv]
    generalize (⟨⟨(TrimSpace idParam).data.map hexLower⟩⟩ : ObjectId) = oid at hid
    by_cases hany : db.docs.any (hasId oid) = true
    · have hdb : dbAfter db (.delete idParam) = ⟨removeFirst oid db.docs, db.up⟩ := by
        simp [dbAfter, serve, deleteTodo, hv, hid, DB.removeId, hup, hany]
      have hd : (exchange db (.delete idParam)).deleted = some oid.hex := by
        simp [exchange, serve, deleteTodo, hv, hid, DB.removeId, hup, hany, Exchange.deleted]
      refine ⟨by rw [hdb]; exact hup, by rw [hdb]; exact shape_removeFirst oid hs, ?_, ?_⟩
      · rw [hdb]
        show (idsOf (removeFirst oid db.docs)).Nodup
        rw [idsOf_removeFirst oid hs]
        exact hn.erase oid
      · intro s
        rw [hdb, hc, hd]
        show s ∈ (idsOf (removeFirst oid db.docs)).map ObjectId.hex ↔ _
        rw [idsOf_removeFirst oid hs]
        simp only [List.mem_map, hn.mem_erase_iff]
        constructor
        · rintro ⟨j, ⟨hne, hj⟩, rfl⟩
          refine Or.inl ⟨⟨j, hj, rfl⟩, ?_⟩
          intro h
          apply hne
          cases j; cases oid
          simp only [Option.some.injEq] at h
          simp [h]
        · rintro (⟨⟨j, hj, rfl⟩, hne⟩ | h)
          · refine ⟨j, ⟨?_, hj⟩, rfl⟩
            rintro rfl
            exact hne rfl
          · cases h
    · have hdb : dbAfter db (.delete idParam) = db := by
        simp [dbAfter, serve, deleteTodo, hv, hid, DB.removeId, hup, hany]
      have hd : (exchange db (.delete idParam)).deleted = none := by
        simp [exchange, serve, deleteTodo, hv, hid, DB.removeId, hup, hany, Exchange.deleted,
          StatusProcessing, StatusOK]
      exact stepOk_same hup hs hn hdb hc hd
  · have hdb : dbAfter db (.delete idParam) = db := by
      simp [dbAfter, serve, deleteTodo, hv]
    have hd : (exchange db (.delete idParam)).deleted = none := by
      simp [exchange, serve, deleteTodo, hv, Exchange.deleted, StatusBadRequest, StatusOK]
    exact stepOk_same hup hs hn hdb hc hd

theorem stepOk (db : DB) (q : Request) (hup : db.up = true) (hs : Shape db.docs)
    (hn : (idsOf db.docs).Nodup) (hf : freshFor db q = true) : StepOk db q := by
  cases q with
  | create body newId now => exact stepOk_create db body newId now hup hs hn hf
  | update idParam body => exact stepOk_update db idParam body hup hs hn
  | delete idParam => exact stepOk_delete db idParam hup hs hn

theorem run_inv (qs : List Request) : ∀ (db : DB) (pre : List Exchange),
    Inv db pre → freshRun db qs = true → Inv (run db qs).1 (pre ++ (run db qs).2) := by
  induction qs with
  | nil => intro db pre h _; simpa [run] using h
  | cons q qs ih =>
    intro db pre ⟨hup, hs, hn, hl⟩ hf
    simp only [freshRun, Bool.and_eq_true] at hf
    obtain ⟨hup1, hs1, hn1, hl1⟩ := stepOk db q hup hs hn hf.1
    have hinv : Inv (dbAfter db q) (pre ++ [exchange db q]) := by
      refine ⟨hup1, hs1, hn1, ?_⟩
      intro s
      rw [hl1 s, liveAfter_snoc, hl s]
      cases liveAfter s pre <;> simp
    have := ih (dbAfter db q) (pre ++ [exchange db q]) hinv hf.2
    simpa [run] using this

/-! ## Theorems -/

/-- C1: a create request whose decoded title is empty is rejected: `createTodo` renders exactly one
response, with status 400 and no `todo_id`, issues no store call and leaves the store as it
was. -/
theorem createTodo_empty_title_rejected (db : DB) (t : todo) (newId : ObjectId) (now : Time)
    (h : t.Title = "") :
    ∃ r resp, createTodo db (.ok t) newId now = .ok r ∧ r.responses = [resp] ∧
      resp.status = StatusBadRequest ∧ resp.field "todo_id" = none ∧
      r.calls = [] ∧ r.db = db := by
  refine ⟨⟨db, [⟨StatusBadRequest, .m [("message", .str "The Title is required")]⟩], []⟩, _,
    ?_, rfl, rfl, rfl, rfl, rfl⟩
  simp [createTodo, h]

theorem createTodo_empty_title_rejected_witness :
    (⟨"", "", true, 0⟩ : todo).Title = "" ∧
    ∃ r resp, createTodo ⟨[], true⟩ (.ok ⟨"", "", true, 0⟩) ⟨"5f1d7f3e2a4b6c8d9e0f1a2b"⟩ 1000 = .ok r ∧
      r.responses = [resp] ∧ resp.status = StatusBadRequest ∧ resp.field "todo_id" = none ∧
      r.calls = [] ∧ r.db = ⟨[], true⟩ :=
  ⟨rfl, createTodo_empty_title_rejected ⟨[], true⟩ ⟨"", "", true, 0⟩ _ 1000 rfl⟩

/-- C4: deleting a syntactically valid identifier that names no stored document does not panic;
`deleteTodo` renders exactly one response, which is not 2xx and carries the message
"Failed to delete todo", and the store is left as it was. -/
theorem deleteTodo_missing_reports_failure (db : DB) (idParam : String) (oid : ObjectId)
    (hid : ObjectIdHex (TrimSpace idParam) = .ok oid)
    (hnone : db.docs.any (hasId oid) = false) :
    ∃ r resp, deleteTodo db idParam = .ok r ∧ r.responses = [resp] ∧
      resp.is2xx = false ∧ resp.field "message" = some (.str "Failed to delete todo") ∧
      r.db = db := by
  have hv := ObjectIdHex_ok_valid hid
  by_cases hup : db.up = true
  · refine ⟨⟨db, [⟨StatusProcessing, .m [("message", .str "Failed to delete todo"),
      ("error", .err .notFound)]⟩], [.removeId oid]⟩, _, ?_, rfl, rfl, rfl, rfl⟩
    simp [deleteTodo, hv, hid, DB.removeId, hup, hnone]
  · refine ⟨⟨db, [⟨StatusProcessing, .m [("message", .str "Failed to delete todo"),
      ("error", .err .unreachable)]⟩], [.removeId oid]⟩, _, ?_, rfl, rfl, rfl, rfl⟩
    simp [deleteTodo, hv, hid, DB.removeId, hup]

theorem deleteTodo_missing_reports_failure_witness :
    ObjectIdHex (TrimSpace " 5F1d7f3e2a4b6c8d9e0f1a2b\n") = .ok ⟨"5f1d7f3e2a4b6c8d9e0f1a2b"⟩ ∧
    (⟨[[("_id", .oid ⟨"000000000000000000000001"⟩), ("title", .str "a")]], true⟩ : DB).docs.any
      (hasId ⟨"5f1d7f3e2a4b6c8d9e0f1a2b"⟩) = false ∧
    ∃ r resp, deleteTodo ⟨[[("_id", .oid ⟨"000000000000000000000001"⟩), ("title", .str "a")]], true⟩
        " 5F1d7f3e2a4b6c8d9e0f1a2b\n" = .ok r ∧ r.responses = [resp] ∧
      resp.is2xx = false ∧ resp.field "message" = some (.str "Failed to delete todo") ∧
      r.db = ⟨[[("_id", .oid ⟨"000000000000000000000001"⟩), ("title", .str "a")]], true⟩ :=
  ⟨rfl, rfl, deleteTodo_missing_reports_failure _ _ _ rfl rfl⟩

/-- C7: an identifier that, once trimmed, is not a syntactically valid object id is rejected before
any query: `updateTodo` and `deleteTodo` each render exactly one response, with status 400,
issue no store call and leave the store as it was, whatever the request body. -/
theorem invalid_id_rejected_before_query (db : DB) (idParam : String) (body : Except String todo)
    (h : IsObjectIdHex (TrimSpace idParam) = false) :
    (∃ r resp, updateTodo db idParam body = .ok r ∧ r.responses = [resp] ∧
      resp.status = StatusBadRequest ∧ r.calls = [] ∧ r.db = db) ∧
    (∃ r resp, deleteTodo db idParam = .ok r ∧ r.responses = [resp] ∧
      resp.status = StatusBadRequest ∧ r.calls = [] ∧ r.db = db) := by
  constructor
  · refine ⟨⟨db, [⟨StatusBadRequest, .m [("message", .str "The Id is invalid")]⟩], []⟩, _,
      ?_, rfl, rfl, rfl, rfl⟩
    simp [updateTodo, h]
  · refine ⟨⟨db, [⟨StatusBadRequest, .m [("message", .str "The id is invalid")]⟩], []⟩, _,
      ?_, rfl, rfl, rfl, rfl⟩
    simp [deleteTodo, h]

theorem invalid_id_rejected_before_query_witness :
    IsObjectIdHex (TrimSpace "5f1d7f3e2a4b6c8d9e0f1a2") = false ∧
    (∃ r resp, updateTodo ⟨[], true⟩ "5f1d7f3e2a4b6c8d9e0f1a2" (.ok ⟨"", "x", true, 0⟩) = .ok r ∧
      r.responses = [resp] ∧ resp.status = StatusBadRequest ∧ r.calls = [] ∧
      r.db = ⟨[], true⟩) ∧
    (∃ r resp, deleteTodo ⟨[], true⟩ "5f1d7f3e2a4b6c8d9e0f1a2" = .ok r ∧ r.responses = [resp] ∧
      resp.status = StatusBadRequest ∧ r.calls = [] ∧ r.db = ⟨[], true⟩) :=
  ⟨rfl, invalid_id_rejected_before_query ⟨[], true⟩ _ (.ok ⟨"", "x", true, 0⟩) rfl⟩

/-- C3: when the store holds a document with valid identifier I and title T0, `updateTodo` on I
returns; it reports no failure when the store can be reached; and whenever it reports no
failure the stored document I has title T0 if the submitted title is empty, the submitted
title otherwise, and in both cases the submitted completed flag. -/
theorem updateTodo_title_and_completed (db : DB) (idParam : String) (oid : ObjectId) (d : Doc)
    (T0 : String) (t : todo)
    (hid : ObjectIdHex (TrimSpace idParam) = .ok oid)
    (hd : db.docs.find? (hasId oid) = some d)
    (ht : docField d "title" = some (.str T0)) :
    ∃ r, updateTodo db idParam (.ok t) = .ok r ∧
      (db.up = true → r.noError = true) ∧
      (r.noError = true →
        ∃ d1, r.db.docs.find? (hasId oid) = some d1 ∧
          docField d1 "title" = some (.str (if t.Title = "" then T0 else t.Title)) ∧
          docField d1 "completed" = some (.bool t.Completed)) := by
  have hv := ObjectIdHex_ok_valid hid
  have hany := any_of_find hd
  have hk : bsonKey "Title" none = "title" := by rfl
  have hT0 : (decodeTodo d).Title = T0 := by simp [decodeTodo, hk, getStr, ht]
  by_cases hup : db.up = true
  · by_cases hT : t.Title = ""
    · refine ⟨⟨{ db with docs := replaceFirst oid (updateDoc { t with Title := T0 }) db.docs },
        [], [.findOne oid, .update oid (updateDoc { t with Title := T0 })]⟩, ?_, ?_, ?_⟩
      · simp [updateTodo, hv, hid, hT, DB.findOne, hup, hd, hT0, DB.update, hany]
      · intro _; rfl
      · intro _
        refine ⟨_, find_replaceFirst oid _ db.docs hany, ?_, ?_⟩
        · simp [hT]; rfl
        · rfl
    · refine ⟨⟨{ db with docs := replaceFirst oid (updateDoc t) db.docs },
        [], [.update oid (updateDoc t)]⟩, ?_, ?_, ?_⟩
      · simp [updateTodo, hv, hid, hT, DB.update, hup, hany]
      · intro _; rfl
      · intro _
        refine ⟨_, find_replaceFirst oid _ db.docs hany, ?_, ?_⟩
        · simp [hT]; rfl
        · rfl
  · by_cases hT : t.Title = ""
    · refine ⟨⟨db, [⟨StatusProcessing, .m [("message", .str "failed to update todo"),
        ("error", .err .unreachable)]⟩], [.findOne oid]⟩, ?_, ?_, ?_⟩
      · simp [updateTodo, hv, hid, hT, DB.findOne, hup]
      · intro h; exact absurd h hup
      · intro h; simp [Result.noError, Response.is2xx, StatusProcessing] at h
    · refine ⟨⟨db, [⟨StatusProcessing, .m [("message", .str "failed to update todo"),
        ("error", .err .unreachable)]⟩], [.update oid (updateDoc t)]⟩, ?_, ?_, ?_⟩
      · simp [updateTodo, hv, hid, hT, DB.update, hup]
      · intro h; exact absurd h hup
      · intro h; simp [Result.noError, Response.is2xx, StatusProcessing] at h

theorem updateTodo_title_and_completed_witness :
    ObjectIdHex (TrimSpace " 5F1D7F3E2A4B6C8D9E0F1A2B ") = .ok oidA ∧
    dbA.docs.find? (hasId oidA) = some docA ∧
    docField docA "title" = some (.str "buy milk") ∧
    ∃ r, updateTodo dbA " 5F1D7F3E2A4B6C8D9E0F1A2B " (.ok ⟨"", "", true, 0⟩) = .ok r ∧
      (dbA.up = true → r.noError = true) ∧
      (r.noError = true →
        ∃ d1, r.db.docs.find? (hasId oidA) = some d1 ∧
          docField d1 "title" = some (.str (if (⟨"", "", true, 0⟩ : todo).Title = ""
            then "buy milk" else (⟨"", "", true, 0⟩ : todo).Title)) ∧
          docField d1 "completed" = some (.bool (⟨"", "", true, 0⟩ : todo).Completed)) :=
  ⟨rfl, rfl, rfl, updateTodo_title_and_completed dbA _ oidA docA "buy milk" ⟨"", "", true, 0⟩
    rfl rfl rfl⟩

/-- C2 fails on the code: after `createTodo` stores title "buy milk" under identifier `oidA` at time
1000 and returns `oidA` as `todo_id`, `fetchById` on that identifier renders a 200 response whose
Todo has the title and the completed flag, but an empty identifier and the zero time. -/
theorem createTodo_then_fetchById_loses_id_and_time :
    createTodo emptyDB (.ok ⟨"", "buy milk", false, 0⟩) oidA 1000 =
      .ok ⟨dbA, [⟨StatusCreated, .m [("message", .str "Todo created successfully"),
        ("todo_id", .str "5f1d7f3e2a4b6c8d9e0f1a2b")]⟩], [.insert docA]⟩ ∧
    fetchById dbA "5f1d7f3e2a4b6c8d9e0f1a2b" =
      .ok ⟨dbA, [⟨StatusOK, .m [("data", .todo ⟨"", "buy milk", false, zeroTime⟩)]⟩],
        [.findOne oidA]⟩ ∧
    bsonKey "Id" none = "id" ∧ bsonKey "CreatedAt" none = "createdat" ∧
    docField docA "id" = none ∧ docField docA "createdat" = none :=
  ⟨rfl, rfl, rfl, rfl, rfl, rfl⟩

/-- C6 fails on the code: for the malformed identifier "abc", `fetchById` and `printTitleById` panic
inside `bson.ObjectIdHex`, whatever the store, and render nothing. -/
theorem fetch_malformed_id_panics (db : DB) :
    fetchById db "abc" = .error (.invalidObjectIdHex "abc") ∧
    printTitleById db "abc" = .error (.invalidObjectIdHex "abc") :=
  ⟨rfl, rfl⟩

/-- C8 fails on the code: when the insert fails (here the store cannot be reached), `createTodo`
renders the failure and then also the 201 "Todo created successfully" response with a
`todo_id`. -/
theorem createTodo_insert_failure_renders_created (docs : List Doc) :
    createTodo ⟨docs, false⟩ (.ok ⟨"", "buy milk", false, 0⟩) oidA 1000 =
      .ok ⟨⟨docs, false⟩,
        [⟨StatusProcessing, .m [("message", .str "Failed to save todo"),
          ("error", .err .unreachable)]⟩,
         ⟨StatusCreated, .m [("message", .str "Todo created successfully"),
          ("todo_id", .str "5f1d7f3e2a4b6c8d9e0f1a2b")]⟩],
        [.insert docA]⟩ := by
  rfl

/-- C9 fails on the code: `updateTodo` on the stored document `docA` (created at time 1000) leaves a
document that has the identifier, the new title and the new completed flag but no `createdAt`
element; `fetchTodos` then renders it with the zero time. -/
theorem updateTodo_drops_createdAt :
    updateTodo dbA "5f1d7f3e2a4b6c8d9e0f1a2b" (.ok ⟨"", "walk", true, 0⟩) =
      .ok ⟨⟨[[("_id", .oid oidA), ("title", .str "walk"), ("completed", .bool true)]], true⟩,
        [], [.update oidA [("title", .str "walk"), ("completed", .bool true)]]⟩ ∧
    docField docA "createdAt" = some (.time 1000) ∧
    docField [("_id", .oid oidA), ("title", .str "walk"), ("completed", .bool true)] "createdAt"
      = none ∧
    fetchTodos ⟨[[("_id", .oid oidA), ("title", .str "walk"), ("completed", .bool true)]], true⟩ =
      .ok ⟨⟨[[("_id", .oid oidA), ("title", .str "walk"), ("completed", .bool true)]], true⟩,
        [⟨StatusOK, .m [("data", .todos [⟨"5f1d7f3e2a4b6c8d9e0f1a2b", "walk", true, zeroTime⟩])]⟩],
        [.findAll]⟩ :=
  ⟨rfl, rfl, rfl, rfl⟩

/-- C5: starting from the empty store, after any finite sequence of create, update and delete
requests in which every generated identifier is fresh (the store being reachable, so that its
calls fail only with not-found), `fetchTodos` renders one 200 response whose list has pairwise
distinct identifiers, and an identifier is in the list exactly when a successful create
returned it and no later delete succeeded on it; when the store is empty the list is
empty. -/
theorem fetchTodos_lists_live_ids (qs : List Request) (hfresh : freshRun emptyDB qs = true) :
    ∃ l, fetchTodos (run emptyDB qs).1 =
        .ok ⟨(run emptyDB qs).1, [⟨StatusOK, .m [("data", .todos l)]⟩], [.findAll]⟩ ∧
      (l.map todo.Id).Nodup ∧
      (∀ i, i ∈ l.map todo.Id ↔ liveAfter i (run emptyDB qs).2 = true) ∧
      ((run emptyDB qs).1.docs = [] → l = []) := by
  have h0 : Inv emptyDB [] := by
    refine ⟨rfl, ?_, ?_, ?_⟩
    · intro d hd; cases hd
    · simp [emptyDB, idsOf]
    · intro s; simp [emptyDB, idsOf, liveAfter]
  obtain ⟨hup, _, hn, hl⟩ := run_inv qs emptyDB [] h0 hfresh
  rw [List.nil_append] at hl
  have hk : bsonKey "ID" (some "_id") = "_id" := rfl
  have hids : ∀ docs : List Doc,
      ((docs.map decodeTodoModel).map fun t =>
        ({ Id := t.ID.hex, Title := t.Title, Completed := t.Completed,
           CreatedAt := t.CreatedAt } : todo)).map todo.Id
      = (idsOf docs).map ObjectId.hex := by
    intro docs
    simp [idsOf, decodeTodoModel, hk, List.map_map, Function.comp_def]
  refine ⟨((run emptyDB qs).1.docs.map decodeTodoModel).map fun t =>
      ({ Id := t.ID.hex, Title := t.Title, Completed := t.Completed,
         CreatedAt := t.CreatedAt } : todo), ?_, ?_, ?_, ?_⟩
  · simp only [fetchTodos, DB.findAll, hup, if_true]
  · rw [hids]
    exact hn.map (fun a b h => by cases a; cases b; simpa using h)
  · intro i
    rw [hids]
    exact hl i
  · intro he
    simp [he]

theorem fetchTodos_lists_live_ids_witness :
    freshRun emptyDB sampleRun = true ∧
    ∃ l, fetchTodos (run emptyDB sampleRun).1 =
        .ok ⟨(run emptyDB sampleRun).1, [⟨StatusOK, .m [("data", .todos l)]⟩], [.findAll]⟩ ∧
      (l.map todo.Id).Nodup ∧
      (∀ i, i ∈ l.map todo.Id ↔ liveAfter i (run emptyDB sampleRun).2 = true) ∧
      ((run emptyDB sampleRun).1.docs = [] → l = []) :=
  ⟨rfl, fetchTodos_lists_live_ids sampleRun rfl⟩

end TodoList
